import Mathlib

/-!
Verification development for the GADIA gambling-advertisement detection
pipeline (backend/main.py, utils/ad_detector.py).

The Python source is shallowly embedded: probabilities are modelled as exact
rationals, the visual classifier is an oracle of type String → Option ℚ
(none models a raised exception from predict_async), and Python string
containment, lower-casing and digit parsing are modelled on character lists
(ASCII case folding). The per-page analysis simple_analyze is modelled as a
fold over the ad-derived candidate list followed by a fold over the page
image inventory, threading the mutable state of the Python function
(gambling_detected, gambling_image_url, frames_analysis, processed_urls)
plus an explicit trace of classifier invocations for the two phases.
-/

namespace Gadia

/-- Python substring test helper: does the first char list occur as a prefix
of the second. -/
def charsPrefix : List Char → List Char → Bool
  | [], _ => true
  | _ :: _, [] => false
  | a :: as, b :: bs => a == b && charsPrefix as bs

/-- Python substring test helper: does the needle occur contiguously inside
the haystack. -/
def charsIn (needle : List Char) : List Char → Bool
  | [] => needle.isEmpty
  | b :: bs => charsPrefix needle (b :: bs) || charsIn needle bs

/-- Model of the Python expression needle in haystack on str. -/
def pyIn (needle hay : String) : Bool := charsIn needle.toList hay.toList

/-- Model of Python str.lower (ASCII case folding). -/
def pyLower (s : String) : String := String.mk (s.toList.map Char.toLower)

/-- Model of Python str.startswith. -/
def pyStartsWith (s pre : String) : Bool := charsPrefix pre.toList s.toList

/-- Model of Python " ".join(xs). -/
def pyJoinSpace : List String → String
  | [] => ""
  | [x] => x
  | x :: y :: rest => String.mk (x.toList ++ ' ' :: (pyJoinSpace (y :: rest)).toList)

/-- Model of Python s[:n] character slicing. -/
def pyTake (s : String) (n : Nat) : String := String.mk (s.toList.take n)

/-- Model of Python string concatenation. -/
def pyConcat (a b : String) : String := String.mk (a.toList ++ b.toList)

/-- Model of Python str.isdigit (nonempty, all characters digits). -/
def pyIsDigit (s : String) : Bool := !s.toList.isEmpty && s.toList.all Char.isDigit

/-- Numeric value of a digit string. -/
def digitsVal (s : String) : Nat := s.toList.foldl (fun n c => 10 * n + (c.toNat - 48)) 0

/-- Model of the Python idiom int(w) if w and w.isdigit() else 0 used for
image dimensions in main.py lines 286-287. -/
def pyDim (s : String) : Nat := if pyIsDigit s then digitsVal s else 0

/-- Ignore words, main.py line 194. -/
def palabras_ignorar : List String :=
  ["logo", "icon", "favicon", "marca", "brand", "comercio", "perfil", "avatar",
   "user", "persona", "foto", "author", "team", "staff"]

/-- Gambling keywords, main.py lines 195-199. -/
def gambling_keywords : List String :=
  ["casino", "poker", "bet", "gambling", "slot", "roulette", "blackjack",
   "baccarat", "craps", "lottery", "bingo", "sports betting", "online casino",
   "real money", "casino online", "apuestas", "juegos de azar", "tragaperras",
   "ruleta", "póker", "bingo online", "jackpot", "premio", "ganador",
   "apuesta deportiva", "apuesta", "ganancias", "bono", "apuesta gratis",
   "apuesta en vivo"]

/-- Gambling symbols, main.py line 200. -/
def gambling_symbols : List String := ["🎰", "💰", "🃏", "🎲", "🏆", "💵", "💸", "🎯"]

/-- Words marking a banner-like ad, main.py line 212. -/
def banner_words : List String := ["banner", "ad", "promo"]

/-- Strict decision threshold, main.py line 201. -/
def gambling_strict_threshold : ℚ := 1/2

/-- Default classifier threshold, gambling_detector.py line 24. -/
def BEST_THRESHOLD : ℚ := 4931/10000

/-- One page image as returned by the scraper (web_scraper.py lines 178-185):
src plus the raw width and height attribute strings. -/
structure ImgData where
  src : String := ""
  width : String := ""
  height : String := ""
deriving DecidableEq

/-- One detected ad region as consumed by simple_analyze (main.py lines
208-211): its classes, its raw text, and the image URLs that
ad_detector.extract_ad_images returns for it. -/
structure Ad where
  ad_images_urls : List String := []
  classes : List String := []
  text : String := ""
deriving DecidableEq

/-- One entry of filtered_ad_images, main.py line 228: the tuple
(img_url, es_banner, ad_text, ad_classes). -/
structure AdCandidate where
  url : String
  es_banner : Bool
  ad_text : String
  ad_classes : List String
deriving DecidableEq

/-- One FrameAnalysis record, main.py lines 251-255. -/
structure Frame where
  url : String
  is_gambling : Bool
  probability : ℚ
deriving DecidableEq

/-- Lower-cased space-join of the ad classes, main.py lines 212 and 223. -/
def joinedClassesLower (classes : List String) : String := pyLower (pyJoinSpace classes)

/-- es_banner flag, main.py line 212. -/
def esBannerOf (ad_classes : List String) (ad_text : String) : Bool :=
  banner_words.any (fun w => pyIn w (joinedClassesLower ad_classes))
    || pyIn "banner" ad_text || pyIn "ad" ad_text

/-- img_related test, main.py lines 220-224. -/
def imgRelated (ad_text lower_url : String) (ad_classes : List String) : Bool :=
  gambling_keywords.any (fun kw => pyIn kw ad_text)
    || gambling_keywords.any (fun kw => pyIn kw lower_url)
    || gambling_keywords.any (fun kw => pyIn kw (joinedClassesLower ad_classes))
    || gambling_symbols.any (fun sym => pyIn sym ad_text)

/-- The candidates one ad contributes to filtered_ad_images: the inner loop of
main.py lines 209-228. -/
def candidatesOfAd (ad : Ad) : List AdCandidate :=
  let ad_classes := ad.classes
  let ad_text := pyLower ad.text
  let es_banner := esBannerOf ad_classes ad_text
  ad.ad_images_urls.filterMap (fun img_url =>
    let lower_url := pyLower img_url
    if palabras_ignorar.any (fun w => pyIn w lower_url) then none
    else if imgRelated ad_text lower_url ad_classes then
      some { url := img_url, es_banner := es_banner, ad_text := ad_text,
             ad_classes := ad_classes }
    else none)

/-- filtered_ad_images before sorting: the outer loop of main.py lines
207-228. -/
def filteredAdImages (ads : List Ad) : List AdCandidate :=
  ads.flatMap candidatesOfAd

/-- The sort of main.py line 231: sort(key=lambda x: not x[1]). A Python list
sort is stable and the key is boolean, so it is exactly the stable partition
placing banner candidates first, each group in discovery order. -/
def sortBannersFirst (l : List AdCandidate) : List AdCandidate :=
  l.filter (fun c => c.es_banner) ++ l.filter (fun c => !c.es_banner)

/-- Round half to even on rationals, the tie behaviour of Python round. -/
def roundHalfEven (x : ℚ) : ℤ :=
  if x - ⌊x⌋ < 1/2 then ⌊x⌋
  else if 1/2 < x - ⌊x⌋ then ⌊x⌋ + 1
  else if ⌊x⌋ % 2 = 0 then ⌊x⌋ else ⌊x⌋ + 1

/-- Model of Python round(q, 3). -/
def round3 (q : ℚ) : ℚ := (roundHalfEven (1000 * q) : ℚ) / 1000

/-- Context bonus of main.py lines 242-246: +0.1 for a gambling keyword in
the ad text or the lower-cased image URL, and +0.1 for a gambling symbol in
the ad text. The ad classes are not consulted here. -/
def context_bonus (ad_text img_url : String) : ℚ :=
  (if gambling_keywords.any (fun kw => pyIn kw ad_text)
      || gambling_keywords.any (fun kw => pyIn kw (pyLower img_url))
   then 1/10 else 0)
  + (if gambling_symbols.any (fun sym => pyIn sym ad_text) then 1/10 else 0)

/-- Python truthiness of the Optional[str] gambling_image_url. -/
def optStrFalsy : Option String → Bool
  | none => true
  | some s => s == ""

/-- The mutable state threaded through simple_analyze, plus the trace of
classifier invocations of each phase. -/
structure AnaState where
  gambling_detected : Bool := false
  gambling_image_url : Option String := none
  frames_analysis : List Frame := []
  processed_urls : List String := []
  adCalls : List String := []
  deepCalls : List String := []
deriving DecidableEq

/-- One iteration of the ad-image loop, main.py lines 237-263. The classifier
is invoked for the candidate; on an exception (none) the error is only
logged; otherwise the context bonus is fused, the frame is appended, and the
first positive sets gambling_image_url. -/
def stepAdCandidate (classifier : String → Option ℚ) (st : AnaState)
    (c : AdCandidate) : AnaState :=
  let st := { st with adCalls := st.adCalls ++ [c.url] }
  match classifier c.url with
  | none => st
  | some prob =>
    let bonus := context_bonus c.ad_text c.url
    let prob_with_context := min (prob + bonus) 1
    let is_gambling : Bool := decide (gambling_strict_threshold < prob_with_context)
    let st := { st with frames_analysis :=
      st.frames_analysis ++ [⟨c.url, is_gambling, round3 prob_with_context⟩] }
    if is_gambling then
      { st with gambling_detected := true,
                gambling_image_url :=
                  if optStrFalsy st.gambling_image_url then some c.url
                  else st.gambling_image_url }
    else st

/-- One iteration of the deep-scan loop, main.py lines 269-310. -/
def stepDeepImage (classifier : String → Option ℚ) (st : AnaState)
    (img : ImgData) : AnaState :=
  let img_url := img.src
  if !(pyStartsWith img_url "http://" || pyStartsWith img_url "https://") then st
  else if img_url ∈ st.processed_urls then st
  else
    let st := { st with processed_urls := st.processed_urls ++ [img_url] }
    let lower_url := pyLower img_url
    if palabras_ignorar.any (fun w => pyIn w lower_url) then st
    else
      let w := pyDim img.width
      let h := pyDim img.height
      if (0 < w ∧ w < 50) ∨ (0 < h ∧ h < 50) then st
      else
        let st := { st with deepCalls := st.deepCalls ++ [img_url] }
        match classifier img_url with
        | none => st
        | some prob =>
          let is_gambling : Bool := decide (gambling_strict_threshold < prob)
          let st := { st with frames_analysis :=
            st.frames_analysis ++ [⟨img_url, is_gambling, round3 prob⟩] }
          if is_gambling then
            { st with gambling_detected := true,
                      gambling_image_url :=
                        if optStrFalsy st.gambling_image_url then some img_url
                        else st.gambling_image_url }
          else st

/-- The result record of simple_analyze restricted to the analysis core
(main.py lines 188-330), together with the book-keeping needed to state the
claims: the snapshot of ad-phase frame URLs used to seed processed_urls, and
the classifier invocation traces of the two phases. -/
structure AnalysisOutput where
  found_ad_images : Bool
  gambling_detected : Bool
  gambling_image_url : Option String
  has_gambling_ads : String
  frames_analysis : List Frame
  adFrameUrls : List String
  processed_urls : List String
  adCalls : List String
  deepCalls : List String
deriving DecidableEq

/-- The state of simple_analyze after the ad-image loop of main.py lines
237-263, starting from the initial empty state of lines 189-192. -/
def adPhase (classifier : String → Option ℚ) (ads : List Ad) : AnaState :=
  (sortBannersFirst (filteredAdImages ads)).foldl (stepAdCandidate classifier) {}

/-- The state at main.py line 267, where processed_urls is seeded with the
URLs of the ad-phase frames. -/
def deepStart (classifier : String → Option ℚ) (ads : List Ad) : AnaState :=
  { adPhase classifier ads with
    processed_urls := (adPhase classifier ads).frames_analysis.map (fun f => f.url) }

/-- The state after the deep-scan loop of main.py lines 269-310. -/
def deepPhase (classifier : String → Option ℚ) (ads : List Ad)
    (all_images : List ImgData) : AnaState :=
  all_images.foldl (stepDeepImage classifier) (deepStart classifier ads)

/-- The analysis core of simple_analyze, main.py lines 188-330: build and
sort the ad-derived candidates, evaluate them in order, then deep-scan the
page images, and aggregate the verdict (lines 314-318). -/
def simple_analyze (classifier : String → Option ℚ) (ads : List Ad)
    (all_images : List ImgData) : AnalysisOutput :=
  let found_ad_images := !(sortBannersFirst (filteredAdImages ads)).isEmpty
  let stD := deepPhase classifier ads all_images
  let gambling_result :=
    if !found_ad_images && stD.frames_analysis.isEmpty then "No"
    else if stD.gambling_detected then "Sí" else "No"
  { found_ad_images := found_ad_images
    gambling_detected := stD.gambling_detected
    gambling_image_url := stD.gambling_image_url
    has_gambling_ads := gambling_result
    frames_analysis := stD.frames_analysis
    adFrameUrls := (adPhase classifier ads).frames_analysis.map (fun f => f.url)
    processed_urls := stD.processed_urls
    adCalls := stD.adCalls
    deepCalls := stD.deepCalls }

/-- The helper _analyze_images_with_resnet of main.py lines 111-136, used by
the analyze-images endpoint: every URL yields a frame, a failed classifier
invocation yielding FrameAnalysis(url, 0.0, false). -/
def analyze_images_with_resnet (classifier : String → Option ℚ)
    (urls : List String) (threshold : Option ℚ) : List Frame :=
  let final_threshold := threshold.getD BEST_THRESHOLD
  urls.foldl (fun results img_url =>
    match classifier img_url with
    | some prob => results ++ [⟨img_url, decide (final_threshold < prob), round3 prob⟩]
    | none => results ++ [⟨img_url, false, 0⟩]) []

/-- An ad record as seen by ad_detector._filter_and_validate_ads: only the
fields that function reads (text, src with dictionary default "", and the
confidence label). -/
structure AdRec where
  text : String := ""
  src : String := ""
  confidence : String := ""
deriving DecidableEq

/-- Dedup key of ad_detector.py line 326: first 100 characters of the text,
an underscore, and the src field. -/
def content_key (ad : AdRec) : String := pyConcat (pyConcat (pyTake ad.text 100) "_") ad.src

/-- One iteration of _filter_and_validate_ads, ad_detector.py lines 324-333:
the key is added to the seen set before the confidence check. -/
def favStep (st : List AdRec × List String) (ad : AdRec) : List AdRec × List String :=
  let key := content_key ad
  if key ∈ st.2 then st
  else
    let seen := st.2 ++ [key]
    if ad.confidence == "high" || ad.confidence == "medium" then (st.1 ++ [ad], seen)
    else (st.1, seen)

/-- ad_detector._filter_and_validate_ads, lines 319-335. -/
def filter_and_validate_ads (ads : List AdRec) : List AdRec :=
  (ads.foldl favStep ([], [])).1

/-- Deep-scan discard condition of the amended claim C8, as a flat
disjunction over the current processed set: no http(s) scheme, already seen,
ignore word in the URL, or one of the parsed dimensions strictly between 0
and 50. -/
def deepDiscard (processed : List String) (img : ImgData) : Bool :=
  !(pyStartsWith img.src "http://" || pyStartsWith img.src "https://")
  || img.src ∈ processed
  || palabras_ignorar.any (fun w => pyIn w (pyLower img.src))
  || decide ((0 < pyDim img.width ∧ pyDim img.width < 50)
      ∨ (0 < pyDim img.height ∧ pyDim img.height < 50))

/-- The deep-scan classifier invocations as a pure function of the initial
processed set and the page images, independent of any classifier outcome:
state is (processed, calls). -/
def deepSurvivorsStep (st : List String × List String) (img : ImgData) :
    List String × List String :=
  if !(pyStartsWith img.src "http://" || pyStartsWith img.src "https://") then st
  else if img.src ∈ st.1 then st
  else
    let processed := st.1 ++ [img.src]
    if palabras_ignorar.any (fun w => pyIn w (pyLower img.src)) then (processed, st.2)
    else if (0 < pyDim img.width ∧ pyDim img.width < 50)
        ∨ (0 < pyDim img.height ∧ pyDim img.height < 50) then (processed, st.2)
    else (processed, st.2 ++ [img.src])

/-- The deep-scan call list reachable from a given processed set. -/
def deepSurvivors (processed : List String) (imgs : List ImgData) : List String :=
  (imgs.foldl deepSurvivorsStep (processed, [])).2

/-- What every produced frame satisfies: its URL was classified to some p,
and the frame either fused an ad-context bonus from {0, 0.1, 0.2} through
min(p + bonus, 1) (ad-derived candidates) or used the raw probability
(deep-scan candidates); the strict 0.5 threshold decides is_gambling on the
fused value in both cases. -/
def FrameSpec (cl : String → Option ℚ) (f : Frame) : Prop :=
  ∃ p, cl f.url = some p ∧
    ((∃ b, (b = 0 ∨ b = 1/10 ∨ b = 1/5) ∧ f.probability = round3 (min (p + b) 1)
        ∧ f.is_gambling = decide (gambling_strict_threshold < min (p + b) 1))
     ∨ (f.probability = round3 p ∧ f.is_gambling = decide (gambling_strict_threshold < p)))

/-! ### Characterizations of the two loop bodies -/

theorem stepAdCandidate_none (classifier : String → Option ℚ) (st : AnaState)
    (c : AdCandidate) (h : classifier c.url = none) :
    stepAdCandidate classifier st c = { st with adCalls := st.adCalls ++ [c.url] } := by
  simp only [stepAdCandidate, h]

theorem stepAdCandidate_some (classifier : String → Option ℚ) (st : AnaState)
    (c : AdCandidate) (p : ℚ) (h : classifier c.url = some p) :
    stepAdCandidate classifier st c =
      { st with
        adCalls := st.adCalls ++ [c.url]
        frames_analysis := st.frames_analysis ++
          [⟨c.url, decide (gambling_strict_threshold < min (p + context_bonus c.ad_text c.url) 1),
            round3 (min (p + context_bonus c.ad_text c.url) 1)⟩]
        gambling_detected := st.gambling_detected
          || decide (gambling_strict_threshold < min (p + context_bonus c.ad_text c.url) 1)
        gambling_image_url :=
          if decide (gambling_strict_threshold < min (p + context_bonus c.ad_text c.url) 1)
              && optStrFalsy st.gambling_image_url
          then some c.url else st.gambling_image_url } := by
  simp only [stepAdCandidate, h]
  cases hd : decide (gambling_strict_threshold < min (p + context_bonus c.ad_text c.url) 1) with
  | true => simp only [hd, Bool.or_true, Bool.true_and, if_true]
  | false => simp only [hd, Bool.or_false, Bool.false_and, Bool.false_eq_true, if_false]

theorem stepDeepImage_noScheme (classifier : String → Option ℚ) (st : AnaState)
    (img : ImgData)
    (h : (pyStartsWith img.src "http://" || pyStartsWith img.src "https://") = false) :
    stepDeepImage classifier st img = st := by
  simp only [stepDeepImage, h, Bool.not_false, if_true]

theorem stepDeepImage_processed (classifier : String → Option ℚ) (st : AnaState)
    (img : ImgData)
    (h : (pyStartsWith img.src "http://" || pyStartsWith img.src "https://") = true)
    (hmem : img.src ∈ st.processed_urls) :
    stepDeepImage classifier st img = st := by
  simp only [stepDeepImage, h, Bool.not_true, Bool.false_eq_true, if_false]
  rw [if_pos hmem]

theorem stepDeepImage_ignored (classifier : String → Option ℚ) (st : AnaState)
    (img : ImgData)
    (h : (pyStartsWith img.src "http://" || pyStartsWith img.src "https://") = true)
    (hmem : img.src ∉ st.processed_urls)
    (hign : palabras_ignorar.any (fun w => pyIn w (pyLower img.src)) = true) :
    stepDeepImage classifier st img
      = { st with processed_urls := st.processed_urls ++ [img.src] } := by
  simp only [stepDeepImage, h, Bool.not_true, Bool.false_eq_true, if_false]
  rw [if_neg hmem]
  simp only [hign, if_true]

theorem stepDeepImage_small (classifier : String → Option ℚ) (st : AnaState)
    (img : ImgData)
    (h : (pyStartsWith img.src "http://" || pyStartsWith img.src "https://") = true)
    (hmem : img.src ∉ st.processed_urls)
    (hign : palabras_ignorar.any (fun w => pyIn w (pyLower img.src)) = false)
    (hsz : (0 < pyDim img.width ∧ pyDim img.width < 50)
        ∨ (0 < pyDim img.height ∧ pyDim img.height < 50)) :
    stepDeepImage classifier st img
      = { st with processed_urls := st.processed_urls ++ [img.src] } := by
  simp only [stepDeepImage, h, Bool.not_true, Bool.false_eq_true, if_false]
  rw [if_neg hmem]
  simp only [hign, Bool.false_eq_true, if_false]
  rw [if_pos hsz]

theorem stepDeepImage_fail (classifier : String → Option ℚ) (st : AnaState)
    (img : ImgData)
    (h : (pyStartsWith img.src "http://" || pyStartsWith img.src "https://") = true)
    (hmem : img.src ∉ st.processed_urls)
    (hign : palabras_ignorar.any (fun w => pyIn w (pyLower img.src)) = false)
    (hsz : ¬ ((0 < pyDim img.width ∧ pyDim img.width < 50)
        ∨ (0 < pyDim img.height ∧ pyDim img.height < 50)))
    (hcl : classifier img.src = none) :
    stepDeepImage classifier st img
      = { st with processed_urls := st.processed_urls ++ [img.src],
                  deepCalls := st.deepCalls ++ [img.src] } := by
  simp only [stepDeepImage, h, Bool.not_true, Bool.false_eq_true, if_false]
  rw [if_neg hmem]
  simp only [hign, Bool.false_eq_true, if_false]
  rw [if_neg hsz]
  simp only [hcl]

theorem stepDeepImage_eval (classifier : String → Option ℚ) (st : AnaState)
    (img : ImgData) (p : ℚ)
    (h : (pyStartsWith img.src "http://" || pyStartsWith img.src "https://") = true)
    (hmem : img.src ∉ st.processed_urls)
    (hign : palabras_ignorar.any (fun w => pyIn w (pyLower img.src)) = false)
    (hsz : ¬ ((0 < pyDim img.width ∧ pyDim img.width < 50)
        ∨ (0 < pyDim img.height ∧ pyDim img.height < 50)))
    (hcl : classifier img.src = some p) :
    stepDeepImage classifier st img
      = { st with
          processed_urls := st.processed_urls ++ [img.src]
          deepCalls := st.deepCalls ++ [img.src]
          frames_analysis := st.frames_analysis ++
            [⟨img.src, decide (gambling_strict_threshold < p), round3 p⟩]
          gambling_detected := st.gambling_detected
            || decide (gambling_strict_threshold < p)
          gambling_image_url :=
            if decide (gambling_strict_threshold < p) && optStrFalsy st.gambling_image_url
            then some img.src else st.gambling_image_url } := by
  simp only [stepDeepImage, h, Bool.not_true, Bool.false_eq_true, if_false]
  rw [if_neg hmem]
  simp only [hign, Bool.false_eq_true, if_false]
  rw [if_neg hsz]
  simp only [hcl]
  cases hd : decide (gambling_strict_threshold < p) with
  | true => simp only [hd, Bool.or_true, Bool.true_and, if_true]
  | false => simp only [hd, Bool.or_false, Bool.false_and, Bool.false_eq_true, if_false]

/-- Exhaustive shape analysis of one deep-scan iteration. -/
theorem stepDeep_shape (cl : String → Option ℚ) (st : AnaState) (img : ImgData) :
    stepDeepImage cl st img = st
    ∨ (img.src ∉ st.processed_urls
        ∧ (pyStartsWith img.src "http://" || pyStartsWith img.src "https://") = true
        ∧ (stepDeepImage cl st img
              = { st with processed_urls := st.processed_urls ++ [img.src] }
          ∨ (cl img.src = none ∧ stepDeepImage cl st img
              = { st with processed_urls := st.processed_urls ++ [img.src],
                          deepCalls := st.deepCalls ++ [img.src] })
          ∨ ∃ p, cl img.src = some p ∧ stepDeepImage cl st img
              = { st with
                  processed_urls := st.processed_urls ++ [img.src]
                  deepCalls := st.deepCalls ++ [img.src]
                  frames_analysis := st.frames_analysis ++
                    [⟨img.src, decide (gambling_strict_threshold < p), round3 p⟩]
                  gambling_detected := st.gambling_detected
                    || decide (gambling_strict_threshold < p)
                  gambling_image_url :=
                    if decide (gambling_strict_threshold < p)
                        && optStrFalsy st.gambling_image_url
                    then some img.src else st.gambling_image_url })) := by
  cases h : (pyStartsWith img.src "http://" || pyStartsWith img.src "https://") with
  | false => exact Or.inl (stepDeepImage_noScheme cl st img h)
  | true =>
    by_cases hmem : img.src ∈ st.processed_urls
    · exact Or.inl (stepDeepImage_processed cl st img h hmem)
    · refine Or.inr ⟨hmem, rfl, ?_⟩
      cases hign : palabras_ignorar.any (fun w => pyIn w (pyLower img.src)) with
      | true => exact Or.inl (stepDeepImage_ignored cl st img h hmem hign)
      | false =>
        by_cases hsz : (0 < pyDim img.width ∧ pyDim img.width < 50)
            ∨ (0 < pyDim img.height ∧ pyDim img.height < 50)
        · exact Or.inl (stepDeepImage_small cl st img h hmem hign hsz)
        · cases hcl : cl img.src with
          | none => exact Or.inr (Or.inl ⟨rfl, stepDeepImage_fail cl st img h hmem hign hsz hcl⟩)
          | some p =>
            exact Or.inr (Or.inr ⟨p, rfl, stepDeepImage_eval cl st img p h hmem hign hsz hcl⟩)

theorem stepAd_adCalls (cl : String → Option ℚ) (st : AnaState) (c : AdCandidate) :
    (stepAdCandidate cl st c).adCalls = st.adCalls ++ [c.url] := by
  cases h : cl c.url with
  | none => rw [stepAdCandidate_none cl st c h]
  | some p => rw [stepAdCandidate_some cl st c p h]

theorem stepAd_deepCalls (cl : String → Option ℚ) (st : AnaState) (c : AdCandidate) :
    (stepAdCandidate cl st c).deepCalls = st.deepCalls := by
  cases h : cl c.url with
  | none => rw [stepAdCandidate_none cl st c h]
  | some p => rw [stepAdCandidate_some cl st c p h]

theorem stepAd_processed (cl : String → Option ℚ) (st : AnaState) (c : AdCandidate) :
    (stepAdCandidate cl st c).processed_urls = st.processed_urls := by
  cases h : cl c.url with
  | none => rw [stepAdCandidate_none cl st c h]
  | some p => rw [stepAdCandidate_some cl st c p h]

theorem stepDeep_adCalls (cl : String → Option ℚ) (st : AnaState) (img : ImgData) :
    (stepDeepImage cl st img).adCalls = st.adCalls := by
  rcases stepDeep_shape cl st img with h | ⟨_, _, h | ⟨_, h⟩ | ⟨p, _, h⟩⟩ <;> rw [h]

theorem foldAd_adCalls (cl : String → Option ℚ) (l : List AdCandidate) (st : AnaState) :
    (l.foldl (stepAdCandidate cl) st).adCalls = st.adCalls ++ l.map (fun c => c.url) := by
  induction l generalizing st with
  | nil => simp
  | cons c rest ih =>
    simp only [List.foldl_cons, List.map_cons]
    rw [ih, stepAd_adCalls]
    simp

theorem foldAd_deepCalls (cl : String → Option ℚ) (l : List AdCandidate) (st : AnaState) :
    (l.foldl (stepAdCandidate cl) st).deepCalls = st.deepCalls := by
  induction l generalizing st with
  | nil => rfl
  | cons c rest ih =>
    simp only [List.foldl_cons]
    rw [ih, stepAd_deepCalls]

theorem foldDeep_adCalls (cl : String → Option ℚ) (l : List ImgData) (st : AnaState) :
    (l.foldl (stepDeepImage cl) st).adCalls = st.adCalls := by
  induction l generalizing st with
  | nil => rfl
  | cons img rest ih =>
    simp only [List.foldl_cons]
    rw [ih, stepDeep_adCalls]

/-- A fold preserves any invariant its step preserves (membership-aware). -/
theorem foldl_inv {α σ : Type} (f : σ → α → σ) (P : σ → Prop) (l : List α)
    (hf : ∀ s a, a ∈ l → P s → P (f s a)) :
    ∀ s, P s → P (l.foldl f s) := by
  induction l with
  | nil => intro s hs; exact hs
  | cons a rest ih =>
    intro s hs
    simp only [List.foldl_cons]
    exact ih (fun s b hb => hf s b (List.mem_cons_of_mem a hb)) (f s a)
      (hf s a (List.mem_cons_self a rest) hs)

/-- One deep-scan iteration acts on (processed_urls, deepCalls) exactly as the
pure survivor step does, whatever the classifier answers. -/
theorem stepDeep_trace (cl : String → Option ℚ) (st : AnaState) (img : ImgData) :
    ((stepDeepImage cl st img).processed_urls, (stepDeepImage cl st img).deepCalls)
      = deepSurvivorsStep (st.processed_urls, st.deepCalls) img := by
  cases h : (pyStartsWith img.src "http://" || pyStartsWith img.src "https://") with
  | false =>
    rw [stepDeepImage_noScheme cl st img h]
    simp only [deepSurvivorsStep, h, Bool.not_false, if_true]
  | true =>
    simp only [deepSurvivorsStep, h, Bool.not_true, Bool.false_eq_true, if_false]
    by_cases hmem : img.src ∈ st.processed_urls
    · rw [stepDeepImage_processed cl st img h hmem, if_pos hmem]
    · rw [if_neg hmem]
      cases hign : palabras_ignorar.any (fun w => pyIn w (pyLower img.src)) with
      | true =>
        rw [stepDeepImage_ignored cl st img h hmem hign]
        simp only [hign, if_true]
      | false =>
        simp only [hign, Bool.false_eq_true, if_false]
        by_cases hsz : (0 < pyDim img.width ∧ pyDim img.width < 50)
            ∨ (0 < pyDim img.height ∧ pyDim img.height < 50)
        · rw [stepDeepImage_small cl st img h hmem hign hsz, if_pos hsz]
        · rw [if_neg hsz]
          cases hcl : cl img.src with
          | none => rw [stepDeepImage_fail cl st img h hmem hign hsz hcl]
          | some p =>
            rw [stepDeepImage_eval cl st img p h hmem hign hsz hcl]

/-- The deep-scan fold realizes the pure survivor fold on
(processed_urls, deepCalls). -/
theorem foldDeep_trace (cl : String → Option ℚ) (l : List ImgData) (st : AnaState) :
    ((l.foldl (stepDeepImage cl) st).processed_urls,
      (l.foldl (stepDeepImage cl) st).deepCalls)
      = l.foldl deepSurvivorsStep (st.processed_urls, st.deepCalls) := by
  induction l generalizing st with
  | nil => rfl
  | cons img rest ih =>
    simp only [List.foldl_cons]
    rw [ih, stepDeep_trace]

/-- Shape analysis of the pure survivor step. -/
theorem deepSurvivorsStep_shape (st : List String × List String) (img : ImgData) :
    deepSurvivorsStep st img = st
    ∨ deepSurvivorsStep st img = (st.1 ++ [img.src], st.2)
    ∨ deepSurvivorsStep st img = (st.1 ++ [img.src], st.2 ++ [img.src]) := by
  cases h : (pyStartsWith img.src "http://" || pyStartsWith img.src "https://") with
  | false =>
    exact Or.inl (by simp only [deepSurvivorsStep, h, Bool.not_false, if_true])
  | true =>
    simp only [deepSurvivorsStep, h, Bool.not_true, Bool.false_eq_true, if_false]
    by_cases hmem : img.src ∈ st.1
    · exact Or.inl (by rw [if_pos hmem])
    · rw [if_neg hmem]
      cases hign : palabras_ignorar.any (fun w => pyIn w (pyLower img.src)) with
      | true => exact Or.inr (Or.inl (by simp only [hign, if_true]))
      | false =>
        simp only [hign, Bool.false_eq_true, if_false]
        by_cases hsz : (0 < pyDim img.width ∧ pyDim img.width < 50)
            ∨ (0 < pyDim img.height ∧ pyDim img.height < 50)
        · exact Or.inr (Or.inl (by rw [if_pos hsz]))
        · exact Or.inr (Or.inr (by rw [if_neg hsz]))

/-- The calls a survivor fold appends form a sublist of the page image srcs. -/
theorem foldDSS_calls_sublist (l : List ImgData) :
    ∀ pr cs : List String, ∃ t,
      (l.foldl deepSurvivorsStep (pr, cs)).2 = cs ++ t
        ∧ t.Sublist (l.map (fun i => i.src)) := by
  induction l with
  | nil => exact fun pr cs => ⟨[], by simp, by simp⟩
  | cons img rest ih =>
    intro pr cs
    simp only [List.foldl_cons, List.map_cons]
    rcases deepSurvivorsStep_shape (pr, cs) img with h | h | h <;> rw [h]
    · obtain ⟨t, ht, hs⟩ := ih pr cs
      exact ⟨t, ht, hs.cons _⟩
    · obtain ⟨t, ht, hs⟩ := ih (pr ++ [img.src]) cs
      exact ⟨t, ht, hs.cons _⟩
    · obtain ⟨t, ht, hs⟩ := ih (pr ++ [img.src]) (cs ++ [img.src])
      refine ⟨img.src :: t, ?_, hs.cons₂ _⟩
      rw [ht]
      simp

/-- A URL passing the http(s) scheme check is nonempty. -/
theorem scheme_ne_empty (s : String)
    (h : (pyStartsWith s "http://" || pyStartsWith s "https://") = true) : s ≠ "" := by
  intro he
  subst he
  exact absurd h (by decide)

/-- The context bonus only takes the values 0, 0.1 and 0.2. -/
theorem context_bonus_cases (t u : String) :
    context_bonus t u = 0 ∨ context_bonus t u = 1/10 ∨ context_bonus t u = 1/5 := by
  unfold context_bonus
  split_ifs <;> norm_num

/-! ### gambling_detected tracks the frames -/

theorem stepAd_det (cl : String → Option ℚ) (st : AnaState) (c : AdCandidate)
    (h : st.gambling_detected = st.frames_analysis.any (fun f => f.is_gambling)) :
    (stepAdCandidate cl st c).gambling_detected
      = (stepAdCandidate cl st c).frames_analysis.any (fun f => f.is_gambling) := by
  cases hc : cl c.url with
  | none => rw [stepAdCandidate_none cl st c hc]; exact h
  | some p =>
    rw [stepAdCandidate_some cl st c p hc]
    simp [List.any_append, h]

theorem stepDeep_det (cl : String → Option ℚ) (st : AnaState) (img : ImgData)
    (h : st.gambling_detected = st.frames_analysis.any (fun f => f.is_gambling)) :
    (stepDeepImage cl st img).gambling_detected
      = (stepDeepImage cl st img).frames_analysis.any (fun f => f.is_gambling) := by
  rcases stepDeep_shape cl st img with hs | ⟨_, _, hs | ⟨_, hs⟩ | ⟨p, _, hs⟩⟩ <;> rw [hs]
  · exact h
  · exact h
  · exact h
  · simp [List.any_append, h]

/-! ### The frames satisfy FrameSpec -/

theorem stepAd_frameSpec (cl : String → Option ℚ) (st : AnaState) (c : AdCandidate)
    (h : ∀ f ∈ st.frames_analysis, FrameSpec cl f) :
    ∀ f ∈ (stepAdCandidate cl st c).frames_analysis, FrameSpec cl f := by
  cases hc : cl c.url with
  | none => rw [stepAdCandidate_none cl st c hc]; exact h
  | some p =>
    rw [stepAdCandidate_some cl st c p hc]
    intro f hf
    rcases List.mem_append.mp hf with hf | hf
    · exact h f hf
    · rcases List.mem_singleton.mp hf with rfl
      exact ⟨p, hc, Or.inl ⟨context_bonus c.ad_text c.url, context_bonus_cases _ _, rfl, rfl⟩⟩

theorem stepDeep_frameSpec (cl : String → Option ℚ) (st : AnaState) (img : ImgData)
    (h : ∀ f ∈ st.frames_analysis, FrameSpec cl f) :
    ∀ f ∈ (stepDeepImage cl st img).frames_analysis, FrameSpec cl f := by
  rcases stepDeep_shape cl st img with hs | ⟨_, _, hs | ⟨_, hs⟩ | ⟨p, hp, hs⟩⟩ <;> rw [hs]
  · exact h
  · exact h
  · exact h
  · intro f hf
    rcases List.mem_append.mp hf with hf | hf
    · exact h f hf
    · rcases List.mem_singleton.mp hf with rfl
      exact ⟨p, hp, Or.inr ⟨rfl, rfl⟩⟩

/-! ### gambling_image_url is the first positive frame -/

theorem stepAd_firstPos (cl : String → Option ℚ) (st : AnaState) (c : AdCandidate)
    (hurl : c.url ≠ "")
    (h1 : ∀ f ∈ st.frames_analysis, f.url ≠ "")
    (h2 : st.gambling_image_url
      = (st.frames_analysis.find? (fun f => f.is_gambling)).map (fun f => f.url)) :
    (∀ f ∈ (stepAdCandidate cl st c).frames_analysis, f.url ≠ "")
      ∧ (stepAdCandidate cl st c).gambling_image_url
        = ((stepAdCandidate cl st c).frames_analysis.find?
            (fun f => f.is_gambling)).map (fun f => f.url) := by
  cases hc : cl c.url with
  | none => rw [stepAdCandidate_none cl st c hc]; exact ⟨h1, h2⟩
  | some p =>
    rw [stepAdCandidate_some cl st c p hc]
    constructor
    · intro f hf
      rcases List.mem_append.mp hf with hf | hf
      · exact h1 f hf
      · rcases List.mem_singleton.mp hf with rfl
        exact hurl
    · rw [List.find?_append]
      cases hfind : st.frames_analysis.find? (fun f => f.is_gambling) with
      | none =>
        rw [h2, hfind, Option.map_none', Option.none_or]
        cases hg : decide (gambling_strict_threshold
            < min (p + context_bonus c.ad_text c.url) 1) with
        | true =>
          rw [List.find?_cons_of_pos _ (by simp [hg]), Option.map_some']
          simp [optStrFalsy]
        | false =>
          rw [List.find?_cons_of_neg _ (by simp [hg])]
          simp [optStrFalsy, hg]
      | some fg =>
        rw [h2, hfind, Option.map_some', Option.or_some, Option.map_some']
        have hne : fg.url ≠ "" := h1 fg (List.mem_of_find?_eq_some hfind)
        have hfalsy : optStrFalsy (some fg.url) = false := by
          simp only [optStrFalsy, beq_eq_false_iff_ne, ne_eq]
          exact hne
        rw [hfalsy]
        simp

theorem stepDeep_firstPos (cl : String → Option ℚ) (st : AnaState) (img : ImgData)
    (h1 : ∀ f ∈ st.frames_analysis, f.url ≠ "")
    (h2 : st.gambling_image_url
      = (st.frames_analysis.find? (fun f => f.is_gambling)).map (fun f => f.url)) :
    (∀ f ∈ (stepDeepImage cl st img).frames_analysis, f.url ≠ "")
      ∧ (stepDeepImage cl st img).gambling_image_url
        = ((stepDeepImage cl st img).frames_analysis.find?
            (fun f => f.is_gambling)).map (fun f => f.url) := by
  rcases stepDeep_shape cl st img with hs | ⟨_, hsch, hs | ⟨_, hs⟩ | ⟨p, hp, hs⟩⟩ <;> rw [hs]
  · exact ⟨h1, h2⟩
  · exact ⟨h1, h2⟩
  · exact ⟨h1, h2⟩
  · have hurl : img.src ≠ "" := scheme_ne_empty img.src hsch
    constructor
    · intro f hf
      rcases List.mem_append.mp hf with hf | hf
      · exact h1 f hf
      · rcases List.mem_singleton.mp hf with rfl
        exact hurl
    · rw [List.find?_append]
      cases hfind : st.frames_analysis.find? (fun f => f.is_gambling) with
      | none =>
        rw [h2, hfind, Option.map_none', Option.none_or]
        cases hg : decide (gambling_strict_threshold < p) with
        | true =>
          rw [List.find?_cons_of_pos _ (by simp [hg]), Option.map_some']
          simp [optStrFalsy]
        | false =>
          rw [List.find?_cons_of_neg _ (by simp [hg])]
          simp [optStrFalsy, hg]
      | some fg =>
        rw [h2, hfind, Option.map_some', Option.or_some, Option.map_some']
        have hne : fg.url ≠ "" := h1 fg (List.mem_of_find?_eq_some hfind)
        have hfalsy : optStrFalsy (some fg.url) = false := by
          simp only [optStrFalsy, beq_eq_false_iff_ne, ne_eq]
          exact hne
        rw [hfalsy]
        simp

/-! ### Numeric facts about rounding and the fused probability -/

theorem roundHalfEven_nonneg (x : ℚ) (h : 0 ≤ x) : 0 ≤ roundHalfEven x := by
  have hf : (0:ℤ) ≤ ⌊x⌋ := Int.floor_nonneg.mpr h
  unfold roundHalfEven
  split_ifs <;> omega

theorem roundHalfEven_le (x : ℚ) (B : ℤ) (h : x ≤ (B:ℚ)) : roundHalfEven x ≤ B := by
  have hfB : ⌊x⌋ ≤ B := by
    have := Int.floor_le_floor h
    rwa [Int.floor_intCast] at this
  unfold roundHalfEven
  split_ifs with h1 h2 h3
  · exact hfB
  · have hlt : (⌊x⌋ : ℚ) < x := by
      have : (1:ℚ)/2 ≤ x - ⌊x⌋ := le_of_not_lt h1
      linarith
    have : ⌊x⌋ < B := by exact_mod_cast lt_of_lt_of_le hlt h
    omega
  · exact hfB
  · have hlt : (⌊x⌋ : ℚ) < x := by
      have : (1:ℚ)/2 ≤ x - ⌊x⌋ := le_of_not_lt h1
      linarith
    have : ⌊x⌋ < B := by exact_mod_cast lt_of_lt_of_le hlt h
    omega

theorem round3_nonneg (q : ℚ) (h : 0 ≤ q) : 0 ≤ round3 q := by
  unfold round3
  have h0 : (0:ℤ) ≤ roundHalfEven (1000 * q) := roundHalfEven_nonneg _ (by linarith)
  have : (0:ℚ) ≤ (roundHalfEven (1000 * q) : ℚ) := by exact_mod_cast h0
  positivity

theorem round3_le_one (q : ℚ) (h : q ≤ 1) : round3 q ≤ 1 := by
  unfold round3
  have h0 : roundHalfEven (1000 * q) ≤ (1000:ℤ) :=
    roundHalfEven_le _ 1000 (by push_cast; linarith)
  rw [div_le_one (by norm_num)]
  exact_mod_cast h0

/-- When q is an exact multiple of 1/1000, rounding to three decimals is the
identity. -/
theorem round3_eq_self (q : ℚ) (n : ℤ) (h : 1000 * q = (n:ℚ)) : round3 q = q := by
  have hq : round3 q = ((n:ℤ):ℚ) / 1000 := by
    simp only [round3, roundHalfEven, h, Int.floor_intCast, sub_self]
    rw [if_pos (by norm_num : (0:ℚ) < 1/2)]
  rw [hq, div_eq_iff (by norm_num : (1000:ℚ) ≠ 0)]
  linarith

theorem context_bonus_nonneg (t u : String) : 0 ≤ context_bonus t u := by
  rcases context_bonus_cases t u with h | h | h <;> rw [h] <;> norm_num

/-! ### Deep-scan dedup invariant -/

theorem stepDeep_dedup (cl : String → Option ℚ) (st : AnaState) (img : ImgData)
    (base : List String)
    (h1 : st.deepCalls.Nodup)
    (h2 : ∀ u ∈ st.deepCalls, u ∈ st.processed_urls ∧ u ∉ base)
    (h3 : ∀ u ∈ base, u ∈ st.processed_urls) :
    (stepDeepImage cl st img).deepCalls.Nodup
      ∧ (∀ u ∈ (stepDeepImage cl st img).deepCalls,
          u ∈ (stepDeepImage cl st img).processed_urls ∧ u ∉ base)
      ∧ (∀ u ∈ base, u ∈ (stepDeepImage cl st img).processed_urls) := by
  have hgrow : ∀ (u : String), u ∈ st.processed_urls
      → u ∈ st.processed_urls ++ [img.src] := fun u hu => List.mem_append_left _ hu
  have hcall : img.src ∉ st.processed_urls →
      (st.deepCalls ++ [img.src]).Nodup
        ∧ (∀ u ∈ st.deepCalls ++ [img.src],
            u ∈ st.processed_urls ++ [img.src] ∧ u ∉ base)
        ∧ (∀ u ∈ base, u ∈ st.processed_urls ++ [img.src]) := by
    intro hmem
    refine ⟨?_, ?_, fun u hu => hgrow u (h3 u hu)⟩
    · rw [List.nodup_append]
      refine ⟨h1, List.nodup_singleton _, ?_⟩
      intro u hu hu2
      rcases List.mem_singleton.mp hu2 with rfl
      exact hmem (h2 _ hu).1
    · intro u hu
      rcases List.mem_append.mp hu with hu | hu
      · exact ⟨hgrow u (h2 u hu).1, (h2 u hu).2⟩
      · rcases List.mem_singleton.mp hu with rfl
        refine ⟨List.mem_append_right _ (List.mem_singleton.mpr rfl), fun hb => ?_⟩
        exact hmem (h3 _ hb)
  rcases stepDeep_shape cl st img with hs | ⟨hmem, hsch, hs | ⟨_, hs⟩ | ⟨p, hp, hs⟩⟩ <;> rw [hs]
  · exact ⟨h1, h2, h3⟩
  · exact ⟨h1, fun u hu => ⟨hgrow u (h2 u hu).1, (h2 u hu).2⟩,
      fun u hu => hgrow u (h3 u hu)⟩
  · exact hcall hmem
  · exact hcall hmem

/-! ### The banner-first sort is a permutation -/

theorem sortBannersFirst_perm (l : List AdCandidate) : (sortBannersFirst l).Perm l :=
  List.filter_append_perm _ l

theorem sortBannersFirst_length (l : List AdCandidate) :
    (sortBannersFirst l).length = l.length :=
  (sortBannersFirst_perm l).length_eq

theorem sortBannersFirst_isEmpty (l : List AdCandidate) :
    (sortBannersFirst l).isEmpty = l.isEmpty := by
  cases l with
  | nil => rfl
  | cons a t =>
    have hlen : (sortBannersFirst (a :: t)).length = (a :: t).length :=
      sortBannersFirst_length _
    cases hs : sortBannersFirst (a :: t) with
    | nil => rw [hs] at hlen; simp at hlen
    | cons b u => rfl

theorem sortBannersFirst_mem (l : List AdCandidate) (c : AdCandidate)
    (h : c ∈ sortBannersFirst l) : c ∈ l :=
  (sortBannersFirst_perm l).mem_iff.mp h

/-! ### Facts about the whole analysis -/

theorem adPhase_det (cl : String → Option ℚ) (ads : List Ad) :
    (adPhase cl ads).gambling_detected
      = (adPhase cl ads).frames_analysis.any (fun f => f.is_gambling) :=
  foldl_inv (stepAdCandidate cl)
    (fun st => st.gambling_detected = st.frames_analysis.any (fun f => f.is_gambling))
    _ (fun s a _ h => stepAd_det cl s a h) {} rfl

theorem deepPhase_det (cl : String → Option ℚ) (ads : List Ad) (imgs : List ImgData) :
    (deepPhase cl ads imgs).gambling_detected
      = (deepPhase cl ads imgs).frames_analysis.any (fun f => f.is_gambling) :=
  foldl_inv (stepDeepImage cl)
    (fun st => st.gambling_detected = st.frames_analysis.any (fun f => f.is_gambling))
    imgs (fun s a _ h => stepDeep_det cl s a h) (deepStart cl ads) (adPhase_det cl ads)

theorem analyze_det (cl : String → Option ℚ) (ads : List Ad) (imgs : List ImgData) :
    (simple_analyze cl ads imgs).gambling_detected
      = (simple_analyze cl ads imgs).frames_analysis.any (fun f => f.is_gambling) :=
  deepPhase_det cl ads imgs

theorem analyze_frameSpec (cl : String → Option ℚ) (ads : List Ad) (imgs : List ImgData) :
    ∀ f ∈ (simple_analyze cl ads imgs).frames_analysis, FrameSpec cl f :=
  foldl_inv (stepDeepImage cl)
    (fun st => ∀ f ∈ st.frames_analysis, FrameSpec cl f)
    imgs (fun s a _ h => stepDeep_frameSpec cl s a h) (deepStart cl ads)
    (foldl_inv (stepAdCandidate cl)
      (fun st => ∀ f ∈ st.frames_analysis, FrameSpec cl f)
      _ (fun s a _ h => stepAd_frameSpec cl s a h) {} (fun f hf => absurd hf (by simp)))

theorem analyze_found (cl : String → Option ℚ) (ads : List Ad) (imgs : List ImgData) :
    (simple_analyze cl ads imgs).found_ad_images = !(filteredAdImages ads).isEmpty := by
  have : (simple_analyze cl ads imgs).found_ad_images
      = !(sortBannersFirst (filteredAdImages ads)).isEmpty := rfl
  rw [this, sortBannersFirst_isEmpty]

theorem analyze_has (cl : String → Option ℚ) (ads : List Ad) (imgs : List ImgData) :
    (simple_analyze cl ads imgs).has_gambling_ads
      = if !(simple_analyze cl ads imgs).found_ad_images
            && (simple_analyze cl ads imgs).frames_analysis.isEmpty then "No"
        else if (simple_analyze cl ads imgs).gambling_detected then "Sí" else "No" :=
  rfl

theorem analyze_adCalls (cl : String → Option ℚ) (ads : List Ad) (imgs : List ImgData) :
    (simple_analyze cl ads imgs).adCalls
      = (sortBannersFirst (filteredAdImages ads)).map (fun c => c.url) := by
  have h1 : (simple_analyze cl ads imgs).adCalls = (deepPhase cl ads imgs).adCalls := rfl
  have h2 : (deepPhase cl ads imgs).adCalls = (deepStart cl ads).adCalls :=
    foldDeep_adCalls cl imgs (deepStart cl ads)
  have h3 : (deepStart cl ads).adCalls = (adPhase cl ads).adCalls := rfl
  have h4 := foldAd_adCalls cl (sortBannersFirst (filteredAdImages ads))
    ({} : AnaState)
  rw [h1, h2, h3]
  rw [show (adPhase cl ads).adCalls
      = ((sortBannersFirst (filteredAdImages ads)).foldl (stepAdCandidate cl)
        ({} : AnaState)).adCalls from rfl, h4]
  rfl

theorem analyze_firstPos (cl : String → Option ℚ) (ads : List Ad) (imgs : List ImgData)
    (h : ∀ c ∈ filteredAdImages ads, c.url ≠ "") :
    (simple_analyze cl ads imgs).gambling_image_url
      = ((simple_analyze cl ads imgs).frames_analysis.find?
          (fun f => f.is_gambling)).map (fun f => f.url) := by
  have hA := foldl_inv (stepAdCandidate cl)
    (fun st => (∀ f ∈ st.frames_analysis, f.url ≠ "")
      ∧ st.gambling_image_url
        = (st.frames_analysis.find? (fun f => f.is_gambling)).map (fun f => f.url))
    (sortBannersFirst (filteredAdImages ads))
    (fun s a ha hp => stepAd_firstPos cl s a (h a (sortBannersFirst_mem _ a ha)) hp.1 hp.2)
    {} ⟨fun f hf => absurd hf (by simp), rfl⟩
  have hD := foldl_inv (stepDeepImage cl)
    (fun st => (∀ f ∈ st.frames_analysis, f.url ≠ "")
      ∧ st.gambling_image_url
        = (st.frames_analysis.find? (fun f => f.is_gambling)).map (fun f => f.url))
    imgs (fun s a _ hp => stepDeep_firstPos cl s a hp.1 hp.2)
    (deepStart cl ads) ⟨hA.1, hA.2⟩
  exact hD.2

theorem analyze_deepCalls (cl : String → Option ℚ) (ads : List Ad) (imgs : List ImgData) :
    (simple_analyze cl ads imgs).deepCalls
      = deepSurvivors (simple_analyze cl ads imgs).adFrameUrls imgs := by
  have ht := foldDeep_trace cl imgs (deepStart cl ads)
  have hd : (deepStart cl ads).deepCalls = ([] : List String) :=
    foldAd_deepCalls cl (sortBannersFirst (filteredAdImages ads)) {}
  have hp : (deepStart cl ads).processed_urls
      = (adPhase cl ads).frames_analysis.map (fun f => f.url) := rfl
  rw [hd, hp] at ht
  exact congrArg Prod.snd ht

theorem analyze_dedup (cl : String → Option ℚ) (ads : List Ad) (imgs : List ImgData) :
    (simple_analyze cl ads imgs).deepCalls.Nodup
      ∧ (∀ u ∈ (simple_analyze cl ads imgs).deepCalls,
          u ∉ (simple_analyze cl ads imgs).adFrameUrls)
      ∧ (∀ u ∈ (simple_analyze cl ads imgs).adFrameUrls,
          u ∈ (simple_analyze cl ads imgs).processed_urls) := by
  have hd : (deepStart cl ads).deepCalls = ([] : List String) :=
    foldAd_deepCalls cl (sortBannersFirst (filteredAdImages ads)) {}
  have hmain := foldl_inv (stepDeepImage cl)
    (fun st => st.deepCalls.Nodup
      ∧ (∀ u ∈ st.deepCalls, u ∈ st.processed_urls
          ∧ u ∉ (adPhase cl ads).frames_analysis.map (fun f => f.url))
      ∧ (∀ u ∈ (adPhase cl ads).frames_analysis.map (fun f => f.url),
          u ∈ st.processed_urls))
    imgs (fun s a _ hp => stepDeep_dedup cl s a _ hp.1 hp.2.1 hp.2.2)
    (deepStart cl ads)
    ⟨hd ▸ List.nodup_nil,
      fun u hu => absurd (hd ▸ hu) (List.not_mem_nil u),
      fun u hu => hu⟩
  exact ⟨hmain.1, fun u hu => (hmain.2.1 u hu).2, hmain.2.2⟩

theorem stepAd_order (cl : String → Option ℚ) (st : AnaState) (c : AdCandidate)
    (hcl : cl c.url ≠ none)
    (h : st.frames_analysis.map (fun f => f.url) = st.adCalls) :
    (stepAdCandidate cl st c).frames_analysis.map (fun f => f.url)
      = (stepAdCandidate cl st c).adCalls := by
  cases hc : cl c.url with
  | none => exact absurd hc hcl
  | some p =>
    rw [stepAdCandidate_some cl st c p hc]
    simp [h]

theorem stepDeep_order (cl : String → Option ℚ) (st : AnaState) (img : ImgData)
    (hcl : ∀ u, cl u ≠ none)
    (h : st.frames_analysis.map (fun f => f.url) = st.adCalls ++ st.deepCalls) :
    (stepDeepImage cl st img).frames_analysis.map (fun f => f.url)
      = (stepDeepImage cl st img).adCalls ++ (stepDeepImage cl st img).deepCalls := by
  rcases stepDeep_shape cl st img with hs | ⟨_, _, hs | ⟨hn, hs⟩ | ⟨p, hp, hs⟩⟩
  · rw [hs]; exact h
  · rw [hs]; exact h
  · exact absurd hn (hcl img.src)
  · rw [hs]
    simp [h]

theorem analyze_order (cl : String → Option ℚ) (ads : List Ad) (imgs : List ImgData)
    (hcl : ∀ u, cl u ≠ none) :
    (simple_analyze cl ads imgs).frames_analysis.map (fun f => f.url)
      = (simple_analyze cl ads imgs).adCalls ++ (simple_analyze cl ads imgs).deepCalls := by
  have hA := foldl_inv (stepAdCandidate cl)
    (fun st => st.frames_analysis.map (fun f => f.url) = st.adCalls)
    (sortBannersFirst (filteredAdImages ads))
    (fun s a _ h => stepAd_order cl s a (hcl a.url) h) {} rfl
  have hd : (deepStart cl ads).deepCalls = ([] : List String) :=
    foldAd_deepCalls cl (sortBannersFirst (filteredAdImages ads)) {}
  have h0 : (deepStart cl ads).frames_analysis.map (fun f => f.url)
      = (deepStart cl ads).adCalls ++ (deepStart cl ads).deepCalls := by
    rw [hd, List.append_nil]
    exact hA
  exact foldl_inv (stepDeepImage cl)
    (fun st => st.frames_analysis.map (fun f => f.url) = st.adCalls ++ st.deepCalls)
    imgs (fun s a _ h => stepDeep_order cl s a hcl h) (deepStart cl ads) h0

theorem analyze_verdict (cl : String → Option ℚ) (ads : List Ad) (imgs : List ImgData) :
    (simple_analyze cl ads imgs).has_gambling_ads
      = if filteredAdImages ads = [] ∧ (simple_analyze cl ads imgs).frames_analysis = []
        then "No"
        else if (simple_analyze cl ads imgs).frames_analysis.any (fun f => f.is_gambling)
        then "Sí" else "No" := by
  rw [analyze_has cl ads imgs, analyze_found cl ads imgs, analyze_det cl ads imgs,
    Bool.not_not]
  by_cases hc : filteredAdImages ads = []
      ∧ (simple_analyze cl ads imgs).frames_analysis = []
  · rw [if_pos hc]
    rw [if_pos (by rw [hc.1, hc.2]; rfl)]
  · rw [if_neg hc]
    rw [if_neg (by
      intro hb
      rcases Bool.and_eq_true _ _ |>.mp hb with ⟨h1, h2⟩
      exact hc ⟨List.isEmpty_iff.mp h1, List.isEmpty_iff.mp h2⟩)]

theorem analyze_bounds (cl : String → Option ℚ) (ads : List Ad) (imgs : List ImgData)
    (hcl : ∀ u p, cl u = some p → 0 ≤ p ∧ p ≤ 1) :
    ∀ f ∈ (simple_analyze cl ads imgs).frames_analysis,
      0 ≤ f.probability ∧ f.probability ≤ 1 := by
  intro f hf
  obtain ⟨p, hp, hspec⟩ := analyze_frameSpec cl ads imgs f hf
  obtain ⟨hp0, hp1⟩ := hcl _ _ hp
  rcases hspec with ⟨b, hb, hprob, _⟩ | ⟨hprob, _⟩
  · have hb0 : 0 ≤ b := by rcases hb with rfl | rfl | rfl <;> norm_num
    rw [hprob]
    exact ⟨round3_nonneg _ (le_min (by linarith) (by norm_num)),
      round3_le_one _ (min_le_right _ _)⟩
  · rw [hprob]
    exact ⟨round3_nonneg _ hp0, round3_le_one _ hp1⟩

theorem filteredAdImages_url (ads : List Ad) (c : AdCandidate)
    (hc : c ∈ filteredAdImages ads) : ∃ ad ∈ ads, c.url ∈ ad.ad_images_urls := by
  unfold filteredAdImages at hc
  rcases List.mem_flatMap.mp hc with ⟨ad, had, hcand⟩
  simp only [candidatesOfAd] at hcand
  rcases List.mem_filterMap.mp hcand with ⟨u, hu, heq⟩
  split_ifs at heq
  cases heq
  exact ⟨ad, had, hu⟩

/-! ### The batch endpoint analyze_images_with_resnet -/

theorem resnet_map (cl : String → Option ℚ) (urls : List String) (thr : Option ℚ) :
    analyze_images_with_resnet cl urls thr
      = urls.map (fun u =>
          match cl u with
          | some p => ⟨u, decide (thr.getD BEST_THRESHOLD < p), round3 p⟩
          | none => ⟨u, false, (0:ℚ)⟩) := by
  unfold analyze_images_with_resnet
  have key : ∀ (us : List String) (acc : List Frame),
      us.foldl (fun results img_url =>
        match cl img_url with
        | some prob => results
            ++ [⟨img_url, decide (thr.getD BEST_THRESHOLD < prob), round3 prob⟩]
        | none => results ++ [⟨img_url, false, 0⟩]) acc
      = acc ++ us.map (fun u =>
          match cl u with
          | some p => ⟨u, decide (thr.getD BEST_THRESHOLD < p), round3 p⟩
          | none => ⟨u, false, (0:ℚ)⟩) := by
    intro us
    induction us with
    | nil => intro acc; simp
    | cons u rest ih =>
      intro acc
      simp only [List.foldl_cons, List.map_cons]
      cases hcl : cl u with
      | none => rw [ih]; simp [hcl]
      | some p => rw [ih]; simp [hcl]
  simpa using key urls []

/-! ### The deep-scan discard condition as a flat disjunction -/

theorem stepDeep_discard_calls (cl : String → Option ℚ) (st : AnaState) (img : ImgData) :
    (stepDeepImage cl st img).deepCalls
      = st.deepCalls ++ (if deepDiscard st.processed_urls img then [] else [img.src]) := by
  cases h : (pyStartsWith img.src "http://" || pyStartsWith img.src "https://") with
  | false =>
    rw [stepDeepImage_noScheme cl st img h]
    simp [deepDiscard, h]
  | true =>
    by_cases hmem : img.src ∈ st.processed_urls
    · rw [stepDeepImage_processed cl st img h hmem]
      simp [deepDiscard, h, hmem]
    · cases hign : palabras_ignorar.any (fun w => pyIn w (pyLower img.src)) with
      | true =>
        rw [stepDeepImage_ignored cl st img h hmem hign]
        simp [deepDiscard, h, hmem, hign]
      | false =>
        by_cases hsz : (0 < pyDim img.width ∧ pyDim img.width < 50)
            ∨ (0 < pyDim img.height ∧ pyDim img.height < 50)
        · rw [stepDeepImage_small cl st img h hmem hign hsz]
          simp [deepDiscard, h, hmem, hign, hsz]
        · cases hcl : cl img.src with
          | none =>
            rw [stepDeepImage_fail cl st img h hmem hign hsz hcl]
            simp [deepDiscard, h, hmem, hign, hsz]
          | some p =>
            rw [stepDeepImage_eval cl st img p h hmem hign hsz hcl]
            simp [deepDiscard, h, hmem, hign, hsz]

theorem stepDeep_processed_eq (cl : String → Option ℚ) (st : AnaState) (img : ImgData) :
    (stepDeepImage cl st img).processed_urls
      = st.processed_urls
        ++ (if (pyStartsWith img.src "http://" || pyStartsWith img.src "https://") = true
              ∧ img.src ∉ st.processed_urls
            then [img.src] else []) := by
  cases h : (pyStartsWith img.src "http://" || pyStartsWith img.src "https://") with
  | false =>
    rw [stepDeepImage_noScheme cl st img h]
    simp
  | true =>
    by_cases hmem : img.src ∈ st.processed_urls
    · rw [stepDeepImage_processed cl st img h hmem]
      simp [hmem]
    · rw [if_pos ⟨rfl, hmem⟩]
      cases hign : palabras_ignorar.any (fun w => pyIn w (pyLower img.src)) with
      | true => rw [stepDeepImage_ignored cl st img h hmem hign]
      | false =>
        by_cases hsz : (0 < pyDim img.width ∧ pyDim img.width < 50)
            ∨ (0 < pyDim img.height ∧ pyDim img.height < 50)
        · rw [stepDeepImage_small cl st img h hmem hign hsz]
        · cases hcl : cl img.src with
          | none => rw [stepDeepImage_fail cl st img h hmem hign hsz hcl]
          | some p => rw [stepDeepImage_eval cl st img p h hmem hign hsz hcl]

theorem analyze_deepCalls_sublist (cl : String → Option ℚ) (ads : List Ad)
    (imgs : List ImgData) :
    (simple_analyze cl ads imgs).deepCalls.Sublist (imgs.map (fun i => i.src)) := by
  rw [analyze_deepCalls]
  unfold deepSurvivors
  obtain ⟨t, ht, hs⟩ := foldDSS_calls_sublist imgs
    (simple_analyze cl ads imgs).adFrameUrls []
  rw [ht]
  simpa using hs

/-! ### Ad-region dedup in the ad detector -/

theorem favStep_seen_mem (st : List AdRec × List String) (ad : AdRec) :
    content_key ad ∈ (favStep st ad).2 := by
  simp only [favStep]
  by_cases h : content_key ad ∈ st.2
  · rw [if_pos h]; exact h
  · rw [if_neg h]
    split_ifs <;> exact List.mem_append_right _ (List.mem_singleton.mpr rfl)

theorem favStep_seen_grows (st : List AdRec × List String) (ad : AdRec) (u : String)
    (hu : u ∈ st.2) : u ∈ (favStep st ad).2 := by
  simp only [favStep]
  by_cases h : content_key ad ∈ st.2
  · rw [if_pos h]; exact hu
  · rw [if_neg h]
    split_ifs <;> exact List.mem_append_left _ hu

theorem favStep_skip (st : List AdRec × List String) (ad : AdRec)
    (h : content_key ad ∈ st.2) : favStep st ad = st := by
  simp only [favStep]
  rw [if_pos h]

theorem foldFav_seen (l : List AdRec) (st : List AdRec × List String) (u : String)
    (hu : u ∈ st.2) : u ∈ (l.foldl favStep st).2 :=
  foldl_inv favStep (fun s => u ∈ s.2) l (fun s a _ h => favStep_seen_grows s a u h) st hu

theorem foldFav_key_mem (l : List AdRec) (st : List AdRec × List String) (ad : AdRec)
    (had : ad ∈ l) : content_key ad ∈ (l.foldl favStep st).2 := by
  induction l generalizing st with
  | nil => cases had
  | cons a rest ih =>
    simp only [List.foldl_cons]
    rcases List.mem_cons.mp had with rfl | had
    · exact foldFav_seen rest _ _ (favStep_seen_mem st ad)
    · exact ih _ had

/-! ### The claims -/

attribute [local semireducible] Rat.add Rat.sub Rat.mul Rat.inv

/-- Claim C1, counterexample: with two eligible ad-derived candidates and a
classifier that answers probability 1, the first candidate already yields a
frame with is_gambling = true, yet the classifier is still invoked for the
second candidate (the ad loop of main.py lines 237-263 has no break), so the
claimed early exit does not happen. -/
theorem c1_no_early_exit_counterexample :
    (simple_analyze (fun _ => some 1)
      [{ ad_images_urls := ["http://ex.com/casino-one.jpg"], classes := [], text := "xx" },
       { ad_images_urls := ["http://ex.com/casino-two.jpg"], classes := [], text := "xx" }]
      []).frames_analysis.map (fun f => f.is_gambling) = [true, true]
    ∧ (simple_analyze (fun _ => some 1)
      [{ ad_images_urls := ["http://ex.com/casino-one.jpg"], classes := [], text := "xx" },
       { ad_images_urls := ["http://ex.com/casino-two.jpg"], classes := [], text := "xx" }]
      []).adCalls = ["http://ex.com/casino-one.jpg", "http://ex.com/casino-two.jpg"] := by
  decide

/-- Claim C1, amended: there is no early exit anywhere. The classifier is
invoked exactly once per ad-derived candidate, in banner-first order,
whatever the results are, and the deep scan invokes the classifier exactly
for the surviving page images, a set independent of any positive result. -/
theorem c1_amended_no_early_exit (cl : String → Option ℚ) (ads : List Ad)
    (imgs : List ImgData) :
    (simple_analyze cl ads imgs).adCalls
      = (sortBannersFirst (filteredAdImages ads)).map (fun c => c.url)
    ∧ (simple_analyze cl ads imgs).deepCalls
      = deepSurvivors (simple_analyze cl ads imgs).adFrameUrls imgs :=
  ⟨analyze_adCalls cl ads imgs, analyze_deepCalls cl ads imgs⟩

/-- Claim C2: the verdict is No when no ad-derived candidate was found and no
frame was produced, and otherwise it is Sí exactly when some produced frame
has is_gambling = true. -/
theorem c2_page_verdict (cl : String → Option ℚ) (ads : List Ad) (imgs : List ImgData) :
    (simple_analyze cl ads imgs).has_gambling_ads
      = if filteredAdImages ads = [] ∧ (simple_analyze cl ads imgs).frames_analysis = []
        then "No"
        else if (simple_analyze cl ads imgs).frames_analysis.any (fun f => f.is_gambling)
        then "Sí" else "No" :=
  analyze_verdict cl ads imgs

/-- Claim C3, counterexample: in the page analysis a failed classifier
invocation leaves no trace in the frame list: with one eligible ad candidate
and an always-failing classifier, the candidate is submitted (adCalls is
nonempty) but frames_analysis stays empty instead of containing
FrameAnalysis(url, 0.0, false). -/
theorem c3_failure_frame_counterexample :
    (simple_analyze (fun _ => none)
      [{ ad_images_urls := ["http://ex.com/casino-one.jpg"], classes := [], text := "xx" }]
      []).adCalls = ["http://ex.com/casino-one.jpg"]
    ∧ (simple_analyze (fun _ => none)
      [{ ad_images_urls := ["http://ex.com/casino-one.jpg"], classes := [], text := "xx" }]
      []).frames_analysis = [] := by
  decide

/-- Claim C3, amended: a classifier failure is non-fatal. In the batch helper
analyze_images_with_resnet every URL yields a frame and a failure yields
FrameAnalysis(url, 0.0, false); in the page analysis every remaining
candidate is still evaluated after a failure (one invocation per candidate),
but the failed candidate itself produces no frame. -/
theorem c3_amended_failure_tolerance (cl : String → Option ℚ) (urls : List String)
    (thr : Option ℚ) (ads : List Ad) (imgs : List ImgData) :
    analyze_images_with_resnet cl urls thr
      = urls.map (fun u =>
          match cl u with
          | some p => ⟨u, decide (thr.getD BEST_THRESHOLD < p), round3 p⟩
          | none => ⟨u, false, (0:ℚ)⟩)
    ∧ (simple_analyze cl ads imgs).adCalls
      = (sortBannersFirst (filteredAdImages ads)).map (fun c => c.url) :=
  ⟨resnet_map cl urls thr, analyze_adCalls cl ads imgs⟩

/-- Claim C4: gambling_image_url is the URL of the first frame, in evaluation
order, whose is_gambling is true, and is absent when there is none; later
positives never overwrite it. The hypothesis that ad image URLs are nonempty
reflects extract_ad_images, which only emits http(s) URLs. -/
theorem c4_first_positive (cl : String → Option ℚ) (ads : List Ad) (imgs : List ImgData)
    (h : ∀ ad ∈ ads, ∀ u ∈ ad.ad_images_urls, u ≠ "") :
    (simple_analyze cl ads imgs).gambling_image_url
      = ((simple_analyze cl ads imgs).frames_analysis.find?
          (fun f => f.is_gambling)).map (fun f => f.url) := by
  apply analyze_firstPos
  intro c hc
  obtain ⟨ad, had, hu⟩ := filteredAdImages_url ads c hc
  exact h ad had c.url hu

/-- Claim C4, witness: a run with two positive frames, where the
representative image is the first positive and is not overwritten. -/
theorem c4_first_positive_witness :
    (∀ ad ∈ ([{ ad_images_urls := ["http://ex.com/casino-one.jpg"], classes := [],
                text := "xx" },
              { ad_images_urls := ["http://ex.com/casino-two.jpg"], classes := [],
                text := "xx" }] : List Ad),
        ∀ u ∈ ad.ad_images_urls, u ≠ "")
    ∧ (simple_analyze (fun _ => some 1)
        [{ ad_images_urls := ["http://ex.com/casino-one.jpg"], classes := [], text := "xx" },
         { ad_images_urls := ["http://ex.com/casino-two.jpg"], classes := [], text := "xx" }]
        []).gambling_image_url
      = ((simple_analyze (fun _ => some 1)
          [{ ad_images_urls := ["http://ex.com/casino-one.jpg"], classes := [], text := "xx" },
           { ad_images_urls := ["http://ex.com/casino-two.jpg"], classes := [], text := "xx" }]
          []).frames_analysis.find? (fun f => f.is_gambling)).map (fun f => f.url) :=
  ⟨by decide, c4_first_positive _ _ _ (by decide)⟩

/-- Claim C5, counterexample: a candidate whose only gambling signal is a
keyword in the ad classes is eligible, but the context bonus of main.py line
243 reads only the ad text and the image URL, so the recorded probability is
the raw 0.35, not min(0.35 + 0.1, 1) = 0.45 as the claim computes. -/
theorem c5_bonus_classes_counterexample :
    (simple_analyze (fun _ => some ((7:ℚ)/20))
      [{ ad_images_urls := ["http://ex.com/picture.jpg"], classes := ["casino"],
         text := "gran evento especial" }] []).frames_analysis
      = [⟨"http://ex.com/picture.jpg", false, 7/20⟩]
    ∧ (gambling_keywords.any (fun kw => pyIn kw (joinedClassesLower ["casino"]))) = true
    ∧ ((7:ℚ)/20 ≠ min ((7:ℚ)/20 + 1/10) 1) := by
  decide

/-- Claim C5, amended: the context bonus is exactly 0, 0.1 or 0.2, with +0.1
for a gambling keyword in the ad text or the image URL (a single OR that does
not consult the ad classes) and +0.1 for a gambling symbol in the ad text;
every frame records, for the classifier output p of its URL, either the
3-decimal rounding of min(p + bonus, 1) (ad-derived) or the 3-decimal
rounding of the raw p (deep scan), and the recorded probability lies in
[0, 1] whenever the classifier outputs lie in [0, 1]. -/
theorem c5_amended_fused_probability (cl : String → Option ℚ) (ads : List Ad)
    (imgs : List ImgData) (hcl : ∀ u p, cl u = some p → 0 ≤ p ∧ p ≤ 1) :
    (∀ t u, context_bonus t u = 0 ∨ context_bonus t u = 1/10 ∨ context_bonus t u = 1/5)
    ∧ (∀ f ∈ (simple_analyze cl ads imgs).frames_analysis,
        FrameSpec cl f ∧ 0 ≤ f.probability ∧ f.probability ≤ 1) :=
  ⟨context_bonus_cases,
    fun f hf => ⟨analyze_frameSpec cl ads imgs f hf, analyze_bounds cl ads imgs hcl f hf⟩⟩

/-- Claim C5, witness: the amended statement at a concrete classifier that
always answers 0.35 on a one-candidate page. -/
theorem c5_amended_fused_probability_witness :
    (∀ u p, (fun (_ : String) => some ((7:ℚ)/20)) u = some p → 0 ≤ p ∧ p ≤ 1)
    ∧ ((∀ t u, context_bonus t u = 0 ∨ context_bonus t u = 1/10 ∨ context_bonus t u = 1/5)
      ∧ (∀ f ∈ (simple_analyze (fun _ => some ((7:ℚ)/20))
            [{ ad_images_urls := ["http://ex.com/picture.jpg"], classes := ["casino"],
               text := "gran evento especial" }] []).frames_analysis,
          FrameSpec (fun _ => some ((7:ℚ)/20)) f
            ∧ 0 ≤ f.probability ∧ f.probability ≤ 1)) := by
  have hcl : ∀ u p, (fun (_ : String) => some ((7:ℚ)/20)) u = some p → 0 ≤ p ∧ p ≤ 1 := by
    intro u p h
    injection h with h2
    rw [← h2]
    norm_num
  exact ⟨hcl, c5_amended_fused_probability _ _ _ hcl⟩

/-- Claim C6: every frame decides is_gambling by the strict comparison
fused > 0.5 (FrameSpec), a fused probability of exactly 0.5 is not gambling,
and the boundary scenario (banner ad, casino URL, classifier 0.3, bonus 0.2)
records probability 0.5 with is_gambling = false and verdict No. -/
theorem c6_strict_threshold (cl : String → Option ℚ) (ads : List Ad) (imgs : List ImgData) :
    (∀ f ∈ (simple_analyze cl ads imgs).frames_analysis, FrameSpec cl f)
    ∧ decide (gambling_strict_threshold < min ((3:ℚ)/10 + 1/5) 1) = false
    ∧ (simple_analyze (fun _ => some ((3:ℚ)/10))
        [{ ad_images_urls := ["http://ex.com/casino-banner-img.jpg"], classes := ["banner"],
           text := "gran casino 🎰" }] []).frames_analysis
      = [⟨"http://ex.com/casino-banner-img.jpg", false, 1/2⟩]
    ∧ (simple_analyze (fun _ => some ((3:ℚ)/10))
        [{ ad_images_urls := ["http://ex.com/casino-banner-img.jpg"], classes := ["banner"],
           text := "gran casino 🎰" }] []).has_gambling_ads = "No" :=
  ⟨analyze_frameSpec cl ads imgs, by decide, by decide, by decide⟩

/-- Claim C7, counterexample: the ad loop does not deduplicate URLs: two ads
carrying the same eligible image URL make the classifier evaluate that URL
twice within one page analysis. -/
theorem c7_duplicate_counterexample :
    (simple_analyze (fun _ => some 0)
      [{ ad_images_urls := ["http://ex.com/casino-dup.jpg"], classes := [], text := "xx" },
       { ad_images_urls := ["http://ex.com/casino-dup.jpg"], classes := [], text := "xx" }]
      []).adCalls = ["http://ex.com/casino-dup.jpg", "http://ex.com/casino-dup.jpg"]
    ∧ ¬ (simple_analyze (fun _ => some 0)
      [{ ad_images_urls := ["http://ex.com/casino-dup.jpg"], classes := [], text := "xx" },
       { ad_images_urls := ["http://ex.com/casino-dup.jpg"], classes := [], text := "xx" }]
      []).adCalls.Nodup := by
  decide

/-- Claim C7, amended: deduplication holds for the deep scan only: no URL is
evaluated twice within the deep scan, no URL recorded as an ad-phase frame is
re-evaluated there, and every ad-phase frame URL stays in the final processed
set; ad-derived candidates themselves are not deduplicated. -/
theorem c7_amended_dedup (cl : String → Option ℚ) (ads : List Ad) (imgs : List ImgData) :
    (simple_analyze cl ads imgs).deepCalls.Nodup
    ∧ (∀ u ∈ (simple_analyze cl ads imgs).deepCalls,
        u ∉ (simple_analyze cl ads imgs).adFrameUrls)
    ∧ (∀ u ∈ (simple_analyze cl ads imgs).adFrameUrls,
        u ∈ (simple_analyze cl ads imgs).processed_urls) :=
  analyze_dedup cl ads imgs

/-- Claim C8, counterexample: an image of reported width 30 and height 100 is
discarded by the deep scan (no classifier call, no frame), although only one
of its dimensions lies in (0, 50): the code discards on either small
dimension, not on both as claimed. -/
theorem c8_size_or_counterexample :
    (simple_analyze (fun _ => some 1) []
      [{ src := "http://ex.com/wide.jpg", width := "30", height := "100" }]).deepCalls = []
    ∧ (simple_analyze (fun _ => some 1) []
      [{ src := "http://ex.com/wide.jpg", width := "30", height := "100" }]).frames_analysis
      = []
    ∧ ¬ ((0 < pyDim "30" ∧ pyDim "30" < 50) ∧ (0 < pyDim "100" ∧ pyDim "100" < 50)) := by
  decide

/-- Claim C8, amended: a deep-scan image is discarded exactly when its URL
lacks an http(s) scheme, or is already in the processed set, or contains an
ignore word, or its reported width or height parses as a digit string to a
value strictly between 0 and 50 (either dimension suffices; an unparseable
dimension counts as 0 and never triggers the size filter); moreover a
schemed, unseen URL is marked processed even when it is then discarded. -/
theorem c8_amended_deep_filter (cl : String → Option ℚ) (st : AnaState) (img : ImgData) :
    (stepDeepImage cl st img).deepCalls
      = st.deepCalls ++ (if deepDiscard st.processed_urls img then [] else [img.src])
    ∧ (stepDeepImage cl st img).processed_urls
      = st.processed_urls
        ++ (if (pyStartsWith img.src "http://" || pyStartsWith img.src "https://") = true
              ∧ img.src ∉ st.processed_urls
            then [img.src] else []) :=
  ⟨stepDeep_discard_calls cl st img, stepDeep_processed_eq cl st img⟩

/-- Claim C9: ad-derived candidates are evaluated banner-first with ties in
discovery order (the stable partition), all of them before any deep-scan
candidate; when no classifier invocation fails, the output frames list is
exactly the evaluation order, ad phase then deep phase, and the deep-scan
calls follow the page image order. -/
theorem c9_ordering (cl : String → Option ℚ) (ads : List Ad) (imgs : List ImgData)
    (hcl : ∀ u, cl u ≠ none) :
    (simple_analyze cl ads imgs).adCalls
      = ((filteredAdImages ads).filter (fun c => c.es_banner)).map (fun c => c.url)
        ++ ((filteredAdImages ads).filter (fun c => !c.es_banner)).map (fun c => c.url)
    ∧ (simple_analyze cl ads imgs).frames_analysis.map (fun f => f.url)
      = (simple_analyze cl ads imgs).adCalls ++ (simple_analyze cl ads imgs).deepCalls
    ∧ (simple_analyze cl ads imgs).deepCalls.Sublist (imgs.map (fun i => i.src)) := by
  refine ⟨?_, analyze_order cl ads imgs hcl, analyze_deepCalls_sublist cl ads imgs⟩
  rw [analyze_adCalls]
  unfold sortBannersFirst
  rw [List.map_append]

/-- Claim C9, witness: the ordering statement at a total classifier on a page
with one non-banner and one banner candidate plus one deep-scan image. -/
theorem c9_ordering_witness :
    (∀ u, (fun (_ : String) => some ((3:ℚ)/5)) u ≠ none)
    ∧ ((simple_analyze (fun _ => some ((3:ℚ)/5))
        [{ ad_images_urls := ["http://ex.com/casino-one.jpg"], classes := [], text := "xx" },
         { ad_images_urls := ["http://ex.com/casino-two.jpg"], classes := ["banner"],
           text := "xx" }]
        [{ src := "http://ex.com/casino-three.jpg", width := "", height := "" }]).adCalls
      = ((filteredAdImages
          [{ ad_images_urls := ["http://ex.com/casino-one.jpg"], classes := [], text := "xx" },
           { ad_images_urls := ["http://ex.com/casino-two.jpg"], classes := ["banner"],
             text := "xx" }]).filter (fun c => c.es_banner)).map (fun c => c.url)
        ++ ((filteredAdImages
          [{ ad_images_urls := ["http://ex.com/casino-one.jpg"], classes := [], text := "xx" },
           { ad_images_urls := ["http://ex.com/casino-two.jpg"], classes := ["banner"],
             text := "xx" }]).filter (fun c => !c.es_banner)).map (fun c => c.url)
    ∧ (simple_analyze (fun _ => some ((3:ℚ)/5))
        [{ ad_images_urls := ["http://ex.com/casino-one.jpg"], classes := [], text := "xx" },
         { ad_images_urls := ["http://ex.com/casino-two.jpg"], classes := ["banner"],
           text := "xx" }]
        [{ src := "http://ex.com/casino-three.jpg", width := "", height := "" }]).frames_analysis.map
          (fun f => f.url)
      = (simple_analyze (fun _ => some ((3:ℚ)/5))
        [{ ad_images_urls := ["http://ex.com/casino-one.jpg"], classes := [], text := "xx" },
         { ad_images_urls := ["http://ex.com/casino-two.jpg"], classes := ["banner"],
           text := "xx" }]
        [{ src := "http://ex.com/casino-three.jpg", width := "", height := "" }]).adCalls
        ++ (simple_analyze (fun _ => some ((3:ℚ)/5))
        [{ ad_images_urls := ["http://ex.com/casino-one.jpg"], classes := [], text := "xx" },
         { ad_images_urls := ["http://ex.com/casino-two.jpg"], classes := ["banner"],
           text := "xx" }]
        [{ src := "http://ex.com/casino-three.jpg", width := "", height := "" }]).deepCalls
    ∧ (simple_analyze (fun _ => some ((3:ℚ)/5))
        [{ ad_images_urls := ["http://ex.com/casino-one.jpg"], classes := [], text := "xx" },
         { ad_images_urls := ["http://ex.com/casino-two.jpg"], classes := ["banner"],
           text := "xx" }]
        [{ src := "http://ex.com/casino-three.jpg", width := "", height := "" }]).deepCalls.Sublist
        (([{ src := "http://ex.com/casino-three.jpg", width := "", height := "" }] :
            List ImgData).map (fun i => i.src))) :=
  ⟨fun _ => Option.some_ne_none _,
    c9_ordering (fun _ => some ((3:ℚ)/5))
      [{ ad_images_urls := ["http://ex.com/casino-one.jpg"], classes := [], text := "xx" },
       { ad_images_urls := ["http://ex.com/casino-two.jpg"], classes := ["banner"],
         text := "xx" }]
      [{ src := "http://ex.com/casino-three.jpg", width := "", height := "" }]
      (fun _ => Option.some_ne_none _)⟩

/-- Claim C10: in _filter_and_validate_ads the dedup key is claimed by the
first region of that key in input order, whatever its confidence, so any
later region with an equal key is dropped and the output does not depend on
it; in particular a medium or high confidence region is dropped when an
earlier low-confidence region claimed its key. -/
theorem c10_dedup_key_first (l₁ l₂ l₃ : List AdRec) (a b : AdRec)
    (hk : content_key a = content_key b) :
    filter_and_validate_ads (l₁ ++ a :: (l₂ ++ b :: l₃))
      = filter_and_validate_ads (l₁ ++ a :: (l₂ ++ l₃)) := by
  unfold filter_and_validate_ads
  have e1 : l₁ ++ a :: (l₂ ++ b :: l₃) = (((l₁ ++ [a]) ++ l₂) ++ (b :: l₃)) := by simp
  have e2 : l₁ ++ a :: (l₂ ++ l₃) = (((l₁ ++ [a]) ++ l₂) ++ l₃) := by simp
  rw [e1, e2]
  simp only [List.foldl_append, List.foldl_cons, List.foldl_nil]
  have hmem : content_key b
      ∈ (l₂.foldl favStep (favStep (l₁.foldl favStep
          (([], []) : List AdRec × List String)) a)).2 := by
    rw [← hk]
    exact foldFav_seen l₂ _ _ (favStep_seen_mem _ a)
  rw [favStep_skip _ _ hmem]

/-- Claim C10, witness: a low-confidence region followed by a high-confidence
region with the same key; the high one is dropped and the output is empty. -/
theorem c10_dedup_key_first_witness :
    content_key ⟨"promo text", "http://x.com/s.png", "low"⟩
      = content_key ⟨"promo text", "http://x.com/s.png", "high"⟩
    ∧ filter_and_validate_ads
        [⟨"promo text", "http://x.com/s.png", "low"⟩,
         ⟨"promo text", "http://x.com/s.png", "high"⟩]
      = filter_and_validate_ads [⟨"promo text", "http://x.com/s.png", "low"⟩]
    ∧ filter_and_validate_ads
        [⟨"promo text", "http://x.com/s.png", "low"⟩,
         ⟨"promo text", "http://x.com/s.png", "high"⟩] = [] :=
  ⟨by decide,
    c10_dedup_key_first [] [] [] _ _ (by decide),
    by decide⟩

end Gadia
